import Mathlib

/- Verification development for the blip front-end logic: the signup form
controller, the login state projector, and the clinic PatientForm helpers.
Pure data transformations are embedded shallowly; JavaScript objects are
embedded as association lists from string keys to a small value type. -/

namespace Blip

/-- Field values occurring in form-value mappings and submission payloads:
strings, booleans, lists of strings, and flat string-to-string objects. -/
inductive Value where
  | str (s : String)
  | bool (b : Bool)
  | strList (l : List String)
  | obj (o : List (String × String))
deriving DecidableEq, Repr

/-- Lookup of a key in an association list, mirroring JavaScript property
access on an object literal (first matching key wins). -/
def lookupKey (k : String) : List (String × α) → Option α
  | [] => none
  | (k2, v) :: rest => if k2 = k then some v else lookupKey k rest

/-- Whether an object has a given key. -/
def hasKey (k : String) (o : List (String × α)) : Bool :=
  (lookupKey k o).isSome

/-- Account type discriminant of the signup flow, derived from the URL path
segment personal or clinician. -/
inductive AccountType where
  | personal
  | clinician
deriving DecidableEq, Repr

/-- Modelled from the spec: the signup page component (app/pages/signup) is
not under src, only its tests are. FormValues fields read by
prepareFormValuesForSubmit: username, fullName, password, passwordConfirm
and the termsAccepted checkbox. -/
structure FormValues where
  username : String
  fullName : String
  password : String
  passwordConfirm : String
  termsAccepted : Bool
deriving DecidableEq, Repr

/-- Modelled from the spec: the signup page component (app/pages/signup) is
not under src, only its tests are. prepareFormValuesForSubmit builds the
submission payload from the form values: common fields username, emails
(single-element list derived from username) and password; the personal
variant sets roles to the empty list and moves fullName into
profile.fullName; the clinician variant sets termsAccepted to the UTC
timestamp string captured at submission time, sets roles to the list
holding clinician, and omits profile. passwordConfirm and the boolean
termsAccepted are never copied into the payload. -/
def prepareFormValuesForSubmit (selected : AccountType) (utcDateString : String)
    (formValues : FormValues) : List (String × Value) :=
  match selected with
  | .personal =>
      [("username", .str formValues.username),
       ("emails", .strList [formValues.username]),
       ("password", .str formValues.password),
       ("roles", .strList []),
       ("profile", .obj [("fullName", formValues.fullName)])]
  | .clinician =>
      [("username", .str formValues.username),
       ("emails", .strList [formValues.username]),
       ("termsAccepted", .str utcDateString),
       ("password", .str formValues.password),
       ("roles", .strList ["clinician"])]

/-- An asynchronous-operation notification payload, passed through the
projector unmodified; embedded as an opaque flat object. -/
abbrev Notif := List (String × String)

/-- One working sub-record of the application state: an in-progress flag and
an optional notification. -/
structure WorkingState where
  inProgress : Bool
  notif : Option Notif
deriving DecidableEq, Repr

/-- The working section of the application state, holding the sub-records the
login and signup projectors read. -/
structure WorkingSection where
  loggingIn : WorkingState
  confirmingSignup : WorkingState
  signingUp : WorkingState
deriving DecidableEq, Repr

/-- The application-state snapshot the projectors receive. -/
structure ApplicationState where
  working : WorkingSection
deriving DecidableEq, Repr

/-- The props object a page projector produces. -/
structure PageProps where
  working : Bool
  notif : Option Notif
deriving DecidableEq, Repr

/-- The store state passed to mapStateToProps, wrapping the application state
under the blip key. -/
structure ReduxState where
  blip : ApplicationState
deriving DecidableEq, Repr

/-- Modelled from the spec: the login page implementation
(app/pages/login/login.js) is not under src, only its tests are. Its
mapStateToProps sets working to loggingIn.inProgress and notification to
loggingIn.notification when non-null, else confirmingSignup.notification,
else null, with strict left-to-right precedence and no merging. -/
def loginMapStateToProps (state : ReduxState) : PageProps :=
  { working := state.blip.working.loggingIn.inProgress,
    notif :=
      match state.blip.working.loggingIn.notif with
      | some n => some n
      | none => state.blip.working.confirmingSignup.notif }

/-- Modelled from the spec: the signup page component (app/pages/signup) is
not under src, only its tests are. handleChange immutably updates the
form-value mapping, setting exactly the changed field and adding it when it
was absent. -/
def handleFieldChange (formValues : List (String × Value)) (fieldName : String)
    (value : Value) : List (String × Value) :=
  match formValues with
  | [] => [(fieldName, value)]
  | (k, v) :: rest =>
      if k = fieldName then (fieldName, value) :: rest
      else (k, v) :: handleFieldChange rest fieldName value

/-- Modelled from the spec: the signup page component (app/pages/signup) is
not under src, only its tests are. The component-local controller state:
whether a selection was made, which account type is selected, and the
form values. -/
structure SignupControllerState where
  madeSelection : Bool
  selected : AccountType
  formValues : List (String × Value)
deriving DecidableEq, Repr

/-- Modelled from the spec: the signup page component (app/pages/signup) is
not under src, only its tests are. The explicit switch-type action toggles
the selected account type between personal and clinician and preserves no
field values across the switch. -/
def switchAccountType (s : SignupControllerState) : SignupControllerState :=
  { madeSelection := true,
    selected :=
      match s.selected with
      | .personal => .clinician
      | .clinician => .personal,
    formValues := [] }

/-- Modelled from the spec: the signup page component (app/pages/signup) is
not under src, only its tests are. Whether the account-type selection step
(signup-selection) is rendered, per the render tests: before a selection is
made, the selection step is shown when no invite key is configured, when
the supplied invite key matches the configured key, or when an invite email
is present (an email short-circuits key validation); it is withheld only
when the key mismatches and no email is present. -/
def showSignupSelection (configuredInviteKey inviteKey inviteEmail : String)
    (madeSelection : Bool) : Bool :=
  !madeSelection &&
    (configuredInviteKey == "" || inviteKey == configuredInviteKey
      || !(inviteEmail == ""))

/-- Field values occurring in the clinic patient form: strings and the list
of assigned tag identifiers. -/
inductive PValue where
  | str (s : String)
  | tags (l : List String)
deriving DecidableEq, Repr

/-- The lodash isEmpty predicate restricted to the value shapes of the
patient form: a string is empty when it has no characters, a tag list when
it has no elements. -/
def isEmptyValue : PValue → Bool
  | .str s => s == ""
  | .tags l => l.isEmpty

/-- emptyValuesFilter from PatientForm.js: a key-value pair is stripped from
the payload when the key is not tags and the value is empty; an empty tags
array is deliberately kept. -/
def emptyValuesFilter (value : PValue) (key : String) : Bool :=
  key != "tags" && isEmptyValue value

/-- The lodash omitBy applied in PatientForm.js: drops every entry on which
the predicate holds of its value and key. -/
def omitBy (o : List (String × PValue)) (pred : PValue → String → Bool) :
    List (String × PValue) :=
  o.filter (fun kv => !(pred kv.2 kv.1))

/-- The source object read by getFormValues in PatientForm.js, with every
field optional (absent fields read as undefined through optional
chaining). -/
structure PatientSource where
  birthDate : Option String := none
  email : Option String := none
  fullName : Option String := none
  mrn : Option String := none
  tags : Option (List String) := none
deriving DecidableEq, Repr

/-- getFormValues from PatientForm.js: builds the five-field form-value
object, replacing each absent or empty string field by the empty string and
rejecting from tags every identifier missing from the clinic patient-tag
mapping (clinicPatientTags is the keyBy result, embedded as the list of
known tag identifiers). -/
def getFormValues (source : Option PatientSource)
    (clinicPatientTags : List String) : List (String × PValue) :=
  [("birthDate", .str ((source.bind PatientSource.birthDate).getD "")),
   ("email", .str ((source.bind PatientSource.email).getD "")),
   ("fullName", .str ((source.bind PatientSource.fullName).getD "")),
   ("mrn", .str ((source.bind PatientSource.mrn).getD "")),
   ("tags", .tags (((source.bind PatientSource.tags).getD []).filter
      (fun tagId => clinicPatientTags.contains tagId)))]

/-- Reading a string property off a form-value object, as JavaScript
property access does when getFormValues is fed its own output. -/
def getStrField (o : List (String × PValue)) (key : String) : Option String :=
  match lookupKey key o with
  | some (.str s) => some s
  | _ => none

/-- Reading the tags property off a form-value object. -/
def getTagsField (o : List (String × PValue)) (key : String) :
    Option (List String) :=
  match lookupKey key o with
  | some (.tags l) => some l
  | _ => none

/-- The patient source seen when a form-value object is itself passed back
to getFormValues as the source, as the submit handlers of PatientForm.js
do with the formik values. -/
def sourceOfFormValues (o : List (String × PValue)) : PatientSource :=
  { birthDate := getStrField o "birthDate",
    email := getStrField o "email",
    fullName := getStrField o "fullName",
    mrn := getStrField o "mrn",
    tags := getTagsField o "tags" }

/-- The tag list stored in a form-value object. -/
def tagsOf (o : List (String × PValue)) : List String :=
  match lookupKey "tags" o with
  | some (.tags l) => l
  | _ => []

/-- A filter applied twice keeps exactly the elements the single filter
keeps. -/
theorem filter_self_idem (p : α → Bool) (l : List α) :
    (l.filter p).filter p = l.filter p := by
  induction l with
  | nil => rfl
  | cons a l ih =>
      by_cases h : p a = true <;> simp [List.filter_cons, h, ih]

/-- Claim C2: for every form-value input, both account types and every captured
timestamp, the submission payload produced by prepareFormValuesForSubmit has
no passwordConfirm key. -/
theorem prepareForSubmit_no_passwordConfirm (selected : AccountType)
    (utcDateString : String) (fv : FormValues) :
    hasKey "passwordConfirm"
      (prepareFormValuesForSubmit selected utcDateString fv) = false := by
  cases selected <;> rfl

/-- Claim C3: for the personal account type, prepareFormValuesForSubmit on the
Jill Jellyfish form values returns exactly the expected payload, with no
termsAccepted and no passwordConfirm key, regardless of the captured
timestamp. -/
theorem prepareForSubmit_personal_jill (utcDateString : String) :
    prepareFormValuesForSubmit AccountType.personal utcDateString
        { username := "jill@gmail.com", fullName := "Jill Jellyfish",
          password := "secret", passwordConfirm := "secret",
          termsAccepted := true } =
      [("username", Value.str "jill@gmail.com"),
       ("emails", Value.strList ["jill@gmail.com"]),
       ("password", Value.str "secret"),
       ("roles", Value.strList []),
       ("profile", Value.obj [("fullName", "Jill Jellyfish")])] ∧
    hasKey "termsAccepted"
      (prepareFormValuesForSubmit AccountType.personal utcDateString
        { username := "jill@gmail.com", fullName := "Jill Jellyfish",
          password := "secret", passwordConfirm := "secret",
          termsAccepted := true }) = false ∧
    hasKey "passwordConfirm"
      (prepareFormValuesForSubmit AccountType.personal utcDateString
        { username := "jill@gmail.com", fullName := "Jill Jellyfish",
          password := "secret", passwordConfirm := "secret",
          termsAccepted := true }) = false :=
  ⟨rfl, rfl, rfl⟩

/-- Claim C4: for the clinician account type and every form-value input, the
payload carries the captured UTC timestamp string as termsAccepted, roles
equal to the single-element clinician list, emails equal to the
single-element list holding the username, and no profile key. -/
theorem prepareForSubmit_clinician_spec (utcDateString : String)
    (fv : FormValues) :
    lookupKey "termsAccepted"
        (prepareFormValuesForSubmit AccountType.clinician utcDateString fv) =
      some (Value.str utcDateString) ∧
    lookupKey "roles"
        (prepareFormValuesForSubmit AccountType.clinician utcDateString fv) =
      some (Value.strList ["clinician"]) ∧
    lookupKey "emails"
        (prepareFormValuesForSubmit AccountType.clinician utcDateString fv) =
      some (Value.strList [fv.username]) ∧
    hasKey "profile"
      (prepareFormValuesForSubmit AccountType.clinician utcDateString fv) =
      false :=
  ⟨rfl, rfl, rfl, rfl⟩

/-- Claim C5: for every application state, the login projector returns working
equal to loggingIn.inProgress, returns loggingIn.notification whenever it is
non-null (in particular when both notifications are non-null, with no
merging), and falls back to confirmingSignup.notification, itself possibly
null, only when loggingIn.notification is null. -/
theorem loginMapStateToProps_spec (s : ReduxState) :
    (loginMapStateToProps s).working = s.blip.working.loggingIn.inProgress ∧
    (∀ n, s.blip.working.loggingIn.notif = some n →
      (loginMapStateToProps s).notif = some n) ∧
    (s.blip.working.loggingIn.notif = none →
      (loginMapStateToProps s).notif = s.blip.working.confirmingSignup.notif) ∧
    (∀ n n2, s.blip.working.loggingIn.notif = some n →
      s.blip.working.confirmingSignup.notif = some n2 →
      (loginMapStateToProps s).notif = some n) := by
  refine ⟨rfl, ?_, ?_, ?_⟩
  · intro n h
    simp [loginMapStateToProps, h]
  · intro h
    simp [loginMapStateToProps, h]
  · intro n n2 h _
    simp [loginMapStateToProps, h]

/-- Claim C5 witness: with both notifications non-null in a concrete state, the
projector returns the loggingIn notification. -/
theorem loginMapStateToProps_spec_witness :
    (loginMapStateToProps
      ⟨⟨⟨⟨false, some [("type", "alert")]⟩, ⟨false, some [("status", "500")]⟩,
         ⟨false, none⟩⟩⟩⟩).notif = some [("type", "alert")] :=
  (loginMapStateToProps_spec
      ⟨⟨⟨⟨false, some [("type", "alert")]⟩, ⟨false, some [("status", "500")]⟩,
         ⟨false, none⟩⟩⟩⟩).2.2.2 [("type", "alert")] [("status", "500")] rfl rfl

/-- Claim C7: handleFieldChange sets exactly the named field, leaving every other
key of the mapping unchanged, and on the empty mapping with field username
it yields exactly the single-entry mapping. -/
theorem handleFieldChange_spec :
    (∀ (fv : List (String × Value)) (fieldName : String) (value : Value)
        (k : String),
      lookupKey k (handleFieldChange fv fieldName value) =
        if k = fieldName then some value else lookupKey k fv) ∧
    handleFieldChange [] "username" (Value.str "a@b.com") =
      [("username", Value.str "a@b.com")] := by
  refine ⟨?_, rfl⟩
  intro fv fieldName value k
  induction fv with
  | nil =>
      by_cases h : k = fieldName
      · simp [handleFieldChange, lookupKey, h]
      · simp [handleFieldChange, lookupKey, h, Ne.symm h]
  | cons hd tl ih =>
      obtain ⟨k2, v2⟩ := hd
      by_cases h1 : k2 = fieldName <;> by_cases h2 : k = fieldName <;>
        by_cases h3 : k2 = k <;>
        simp_all [handleFieldChange, lookupKey, eq_comm]

/-- Claim C8: starting from a controller state with the personal type selected,
the switch-type action moves to clinician and a second switch returns to
personal. -/
theorem switchAccountType_roundtrip_personal (s : SignupControllerState)
    (h : s.selected = AccountType.personal) :
    (switchAccountType s).selected = AccountType.clinician ∧
    (switchAccountType (switchAccountType s)).selected =
      AccountType.personal := by
  constructor <;> simp [switchAccountType, h]

/-- Claim C8 witness: the round trip at a concrete controller state. -/
theorem switchAccountType_roundtrip_personal_witness :
    (switchAccountType ⟨true, AccountType.personal, []⟩).selected =
      AccountType.clinician ∧
    (switchAccountType
        (switchAccountType ⟨true, AccountType.personal, []⟩)).selected =
      AccountType.personal :=
  switchAccountType_roundtrip_personal ⟨true, AccountType.personal, []⟩ rfl

/-- Claim C1 counterexample: with configured key foobar, supplied key foobar and
no invite email, the claim asserts the selection step is bypassed (not
shown), but the render tests show signup-selection is still rendered there:
the selection step is shown, refuting the bypass direction of the claimed
equivalence. -/
theorem showSignupSelection_matching_key_not_bypassed :
    ¬ (showSignupSelection "foobar" "foobar" "" false = false) := by
  decide

/-- Claim C1 (amended): when a configured invite key is non-empty, the selection
step is never auto-bypassed; before a selection is made it is shown exactly
when the supplied key matches the configured key or an invite email is
present (an email short-circuits key validation), and withheld only when
the key mismatches and no email is present. -/
theorem showSignupSelection_gate (configuredInviteKey inviteKey inviteEmail :
    String) (h : configuredInviteKey ≠ "") :
    showSignupSelection configuredInviteKey inviteKey inviteEmail false = true
      ↔ (inviteKey = configuredInviteKey ∨ inviteEmail ≠ "") := by
  simp [showSignupSelection, h]

/-- Claim C1 witness: with configured key foobar, a mismatching supplied key and a
non-empty invite email, the selection step is shown. -/
theorem showSignupSelection_gate_witness :
    showSignupSelection "foobar" "wrong-key" "gordonmdent@gmail.com" false =
      true :=
  (showSignupSelection_gate "foobar" "wrong-key" "gordonmdent@gmail.com"
      (by decide)).mpr (Or.inr (by decide))

/-- Claim C9: getFormValues returns an object with exactly the five keys
birthDate, email, fullName, mrn and tags; its tags hold exactly the source
tag identifiers known to the clinic patient-tag mapping; for every source,
each of the four string fields is kept when present and replaced by the
empty string when absent (a field of the absent source, or an individually
missing field of a present source, which also covers the falsy empty
string, preserved as itself); and feeding its output back as the source
reproduces the output (idempotence for a fixed mapping). -/
theorem getFormValues_spec (source : Option PatientSource)
    (clinicPatientTags : List String) :
    ((getFormValues source clinicPatientTags).map Prod.fst =
      ["birthDate", "email", "fullName", "mrn", "tags"]) ∧
    (∀ t : String, t ∈ tagsOf (getFormValues source clinicPatientTags) ↔
      (t ∈ (source.bind PatientSource.tags).getD [] ∧
        t ∈ clinicPatientTags)) ∧
    (∀ s, source.bind PatientSource.birthDate = some s →
      lookupKey "birthDate" (getFormValues source clinicPatientTags) =
        some (PValue.str s)) ∧
    (source.bind PatientSource.birthDate = none →
      lookupKey "birthDate" (getFormValues source clinicPatientTags) =
        some (PValue.str "")) ∧
    (∀ s, source.bind PatientSource.email = some s →
      lookupKey "email" (getFormValues source clinicPatientTags) =
        some (PValue.str s)) ∧
    (source.bind PatientSource.email = none →
      lookupKey "email" (getFormValues source clinicPatientTags) =
        some (PValue.str "")) ∧
    (∀ s, source.bind PatientSource.fullName = some s →
      lookupKey "fullName" (getFormValues source clinicPatientTags) =
        some (PValue.str s)) ∧
    (source.bind PatientSource.fullName = none →
      lookupKey "fullName" (getFormValues source clinicPatientTags) =
        some (PValue.str "")) ∧
    (∀ s, source.bind PatientSource.mrn = some s →
      lookupKey "mrn" (getFormValues source clinicPatientTags) =
        some (PValue.str s)) ∧
    (source.bind PatientSource.mrn = none →
      lookupKey "mrn" (getFormValues source clinicPatientTags) =
        some (PValue.str "")) ∧
    (getFormValues
        (some (sourceOfFormValues (getFormValues source clinicPatientTags)))
        clinicPatientTags = getFormValues source clinicPatientTags) := by
  refine ⟨rfl, ?_, ?_, ?_, ?_, ?_, ?_, ?_, ?_, ?_, ?_⟩
  · intro t
    simp [tagsOf, getFormValues, lookupKey, List.mem_filter, List.contains,
      List.elem_iff]
  · intro s h
    simp [getFormValues, lookupKey, h]
  · intro h
    simp [getFormValues, lookupKey, h]
  · intro s h
    simp [getFormValues, lookupKey, h]
  · intro h
    simp [getFormValues, lookupKey, h]
  · intro s h
    simp [getFormValues, lookupKey, h]
  · intro h
    simp [getFormValues, lookupKey, h]
  · intro s h
    simp [getFormValues, lookupKey, h]
  · intro h
    simp [getFormValues, lookupKey, h]
  · simp [getFormValues, sourceOfFormValues, getStrField, getTagsField,
      lookupKey, filter_self_idem]

/-- Claim C9 witness: at a concrete present source whose birthDate is absent,
whose fullName is present and whose tag list is partially known to the
mapping, the output defaults birthDate to the empty string, keeps fullName,
and keeps the known tag identifier. -/
theorem getFormValues_spec_witness :
    lookupKey "birthDate"
        (getFormValues (some { fullName := some "Jill", tags := some ["tag1", "zzz"] })
          ["tag1", "tag2"]) = some (PValue.str "") ∧
    lookupKey "fullName"
        (getFormValues (some { fullName := some "Jill", tags := some ["tag1", "zzz"] })
          ["tag1", "tag2"]) = some (PValue.str "Jill") ∧
    "tag1" ∈ tagsOf
        (getFormValues (some { fullName := some "Jill", tags := some ["tag1", "zzz"] })
          ["tag1", "tag2"]) := by
  have h := getFormValues_spec (some { fullName := some "Jill", tags := some ["tag1", "zzz"] })
    ["tag1", "tag2"]
  exact ⟨h.2.2.2.1 rfl, h.2.2.2.2.2.2.1 "Jill" rfl,
    (h.2.1 "tag1").mpr ⟨by decide, by decide⟩⟩

/-- Claim C10: emptyValuesFilter holds exactly of the non-tags keys with empty
values; consequently omitBy with it always retains the tags entry, even an
empty array, and keeps precisely the entries whose key is tags or whose
value is non-empty. -/
theorem emptyValuesFilter_spec :
    (∀ (value : PValue) (key : String),
      emptyValuesFilter value key = true ↔
        (key ≠ "tags" ∧ isEmptyValue value = true)) ∧
    (∀ o : List (String × PValue),
      lookupKey "tags" (omitBy o emptyValuesFilter) = lookupKey "tags" o) ∧
    (∀ (o : List (String × PValue)) (k : String) (v : PValue),
      (k, v) ∈ omitBy o emptyValuesFilter ↔
        ((k, v) ∈ o ∧ (k = "tags" ∨ isEmptyValue v = false))) := by
  refine ⟨?_, ?_, ?_⟩
  · intro value key
    simp [emptyValuesFilter, Bool.and_eq_true, bne_iff_ne]
  · intro o
    induction o with
    | nil => rfl
    | cons hd tl ih =>
        obtain ⟨k2, v2⟩ := hd
        by_cases h : k2 = "tags"
        · subst h
          simp [omitBy, List.filter_cons, emptyValuesFilter, lookupKey]
        · by_cases h2 : isEmptyValue v2 = true <;>
            simp_all [omitBy, List.filter_cons, emptyValuesFilter, lookupKey,
              bne_iff_ne]
  · intro o k v
    constructor
    · intro hmem
      have h1 := (List.mem_filter.mp hmem).1
      have h2 := (List.mem_filter.mp hmem).2
      refine ⟨h1, ?_⟩
      by_cases hk : k = "tags"
      · exact Or.inl hk
      · refine Or.inr ?_
        cases he : isEmptyValue v with
        | false => rfl
        | true =>
            exfalso
            simp [emptyValuesFilter, bne_iff_ne, hk, he] at h2
    · intro hmem
      refine List.mem_filter.mpr ⟨hmem.1, ?_⟩
      simp only [emptyValuesFilter, Bool.not_eq_true']
      rcases hmem.2 with h | h
      · subst h
        simp
      · simp [h]

/-- Claim C10 witness: at a concrete payload, the empty mrn string is stripped
while the empty tags array is retained. -/
theorem emptyValuesFilter_spec_witness :
    lookupKey "tags"
      (omitBy [("mrn", PValue.str ""), ("tags", PValue.tags [])]
        emptyValuesFilter) = some (PValue.tags []) := by
  have h := emptyValuesFilter_spec.2.1
    [("mrn", PValue.str ""), ("tags", PValue.tags [])]
  rw [h]
  rfl

end Blip
